import Mathlib

/-!
Verification of the ReuralNetwork crate: a dense-matrix library
(construction, indexing, mapping, transposition, matrix multiplication,
element-wise/scalar/unary operators) with a sigmoid feed-forward layer,
network and builder on top.

Embedding conventions:
* `usize` values are natural numbers; the platform is modelled as 64-bit, so
  `usize::MAX` is the constant `usizeMax`.  `checked_mul` succeeds exactly
  when the mathematical product is at most `usizeMax`.
* `NonZeroUsize` fields are natural numbers; positivity is carried as a
  hypothesis where a theorem needs it.
* `f64` is modelled by the real numbers.
* Rust's `rand::ThreadRng` is modelled by a stream `ℕ → ℝ` of sampled
  values; `resize_with(length, closure)` consumes the first `length` values.
* Fallible functions return `Except Error`.
* `Vec<T>` indexing panics out of bounds; the `unsafe` accessors are total
  here via `List.getD` with the `Inhabited` default, and every theorem that
  relies on their value restricts to in-bounds coordinates, as the source's
  safety comments do.
-/

namespace Reural

/-- The maximum `usize` value of the modelled 64-bit platform, 2^64 - 1. -/
def usizeMax : ℕ := 18446744073709551615

/-- The error enumeration of the crate (src/error.rs).  The variant
`EmptyNetwork` is the one constructed and matched by
`NeuralNetwork::new` (src/neural_network.rs); the `error.rs` in this
snapshot predates it but the network module uses it as part of the same
enum. -/
inductive Error : Type where
  | CellOutOfBounds : Error
  | DimensionMismatch : Error
  | DimensionsTooLarge : Error
  | EmptyNetwork : Error
deriving DecidableEq, Repr

/-- The matrix struct (src/matrix/definition.rs): a number of rows, a
number of columns (both `NonZeroUsize` in the source), and the elements as
a flat row-major vector. -/
structure Matrix (α : Type) : Type where
  rows : ℕ
  columns : ℕ
  data : List α
deriving DecidableEq, Repr

variable {α : Type}

/-- `Matrix::as_slice`: the data of the matrix as a 1-dimensional slice. -/
def Matrix.as_slice (m : Matrix α) : List α :=
  m.data

/-- `Matrix::get_columns`. -/
def Matrix.get_columns (m : Matrix α) : ℕ :=
  m.columns

/-- `Matrix::get_rows`. -/
def Matrix.get_rows (m : Matrix α) : ℕ :=
  m.rows

/-- `Matrix::get_index_unchecked`: the flat index of the element in the
given row and column, `columns * row + column`. -/
def Matrix.get_index_unchecked (m : Matrix α) (row column : ℕ) : ℕ :=
  m.get_columns * row + column

/-- `Matrix::get_length_from_rows_and_columns`: `rows.checked_mul(columns)`,
an error when the product overflows `usize`. -/
def Matrix.get_length_from_rows_and_columns (rows columns : ℕ) :
    Except Error ℕ :=
  if rows * columns ≤ usizeMax then Except.ok (rows * columns)
  else Except.error Error.DimensionsTooLarge

/-- `Matrix::get_unchecked`: the element at the unchecked flat index. -/
def Matrix.get_unchecked [Inhabited α] (m : Matrix α) (row column : ℕ) : α :=
  m.data.getD (m.get_index_unchecked row column) default

/-- `Matrix::new`: a matrix with the given dimensions filled with the
default value. -/
def Matrix.new (rows columns : ℕ) (defaultValue : α) :
    Except Error (Matrix α) := do
  let length ← Matrix.get_length_from_rows_and_columns rows columns
  Except.ok { rows := rows, columns := columns,
              data := List.replicate length defaultValue }

/-- `Matrix::from_slice`: convert a slice into a matrix of the given
dimensions. -/
def Matrix.from_slice (rows columns : ℕ) (data : List α) :
    Except Error (Matrix α) := do
  let length ← Matrix.get_length_from_rows_and_columns rows columns
  if length ≠ data.length then Except.error Error.DimensionMismatch
  else Except.ok { rows := rows, columns := columns, data := data }

/-- `Matrix::get`: the value in the given row and column, an error if the
coordinates are out of bounds. -/
def Matrix.get [Inhabited α] (m : Matrix α) (row column : ℕ) :
    Except Error α :=
  if row ≥ m.get_rows ∨ column ≥ m.get_columns then
    Except.error Error.CellOutOfBounds
  else Except.ok (m.get_unchecked row column)

/-- `Matrix::map`: replace each element by `mapping element row column`,
iterating rows and columns in row-major order and updating the flat buffer
at the unchecked index. -/
def Matrix.map [Inhabited α] (m : Matrix α) (mapping : α → ℕ → ℕ → α) :
    Matrix α :=
  { m with data :=
      (List.range m.get_rows).foldl (fun data row =>
        (List.range m.get_columns).foldl (fun data column =>
          data.set (m.get_columns * row + column)
            (mapping (data.getD (m.get_columns * row + column) default)
              row column)) data) m.data }

/-- `Matrix::map_ref_mut`: the same row-major update loop as `map`, with
the closure mutating through a reference; the mutation is modelled as the
function from the old element (and coordinates) to the new one. -/
def Matrix.map_ref_mut [Inhabited α] (m : Matrix α)
    (mapping : α → ℕ → ℕ → α) : Matrix α :=
  { m with data :=
      (List.range m.get_rows).foldl (fun data row =>
        (List.range m.get_columns).foldl (fun data column =>
          data.set (m.get_columns * row + column)
            (mapping (data.getD (m.get_columns * row + column) default)
              row column)) data) m.data }

/-- `Matrix::transpose`: rows and columns are switched; the new buffer is
filled by one pass over its indices, back-computing the source
coordinates (`row = index / columns`, `column = index % columns`, value
`get_unchecked column row`). -/
def Matrix.transpose [Inhabited α] (m : Matrix α) : Matrix α :=
  { rows := m.columns, columns := m.rows,
    data := (List.range (m.columns * m.rows)).map (fun index =>
      m.get_unchecked (index % m.rows) (index / m.rows)) }

/-- `Matrix::matrix_mul`: the matrix product.  An inner-dimension mismatch
is a `DimensionMismatch`; the output size is checked against `usize`; each
output element is seeded with the `i = 0` product and accumulated over
`i in 1..self.columns`, and the elements are pushed in row-major order. -/
def Matrix.matrix_mul [Inhabited α] [Add α] [Mul α] (m other : Matrix α) :
    Except Error (Matrix α) :=
  if m.get_columns ≠ other.get_rows then Except.error Error.DimensionMismatch
  else do
    let _size ← Matrix.get_length_from_rows_and_columns m.rows other.columns
    Except.ok
      { rows := m.rows, columns := other.columns,
        data := (List.range m.rows).flatMap (fun row =>
          (List.range other.columns).map (fun column =>
            (List.range (m.get_columns - 1)).foldl
              (fun element i =>
                element + m.get_unchecked row (i + 1) *
                  other.get_unchecked (i + 1) column)
              (m.get_unchecked row 0 * other.get_unchecked 0 column))) }

/-- The body generated by `impl_element_wise_binary_operator` for each of
the ten operators: a `DimensionMismatch` when the shapes differ, otherwise
a clone of `self` mapped with `element op other.get_unchecked(row, column)`.
The scalar operator is the parameter `op`. -/
def Matrix.element_wise_binary_operator [Inhabited α] (op : α → α → α)
    (m other : Matrix α) : Except Error (Matrix α) :=
  if m.get_rows ≠ other.get_rows ∨ m.get_columns ≠ other.get_columns then
    Except.error Error.DimensionMismatch
  else
    let result : Matrix α :=
      { rows := m.rows, columns := m.columns, data := m.data }
    Except.ok (result.map (fun element row column =>
      op element (other.get_unchecked row column)))

/-- The `Add` instance on matrices, `impl_element_wise_binary_operator`
instantiated with `+` (called by `Layer::predict` as `output.add(&bias)`). -/
def Matrix.add [Inhabited α] [Add α] (m other : Matrix α) :
    Except Error (Matrix α) :=
  Matrix.element_wise_binary_operator (fun a b => a + b) m other

/-- The body generated by `impl_scalar_binary_operator` for each operator:
a clone of `self` mapped with `element op other`, no dimension concern. -/
def Matrix.scalar_binary_operator [Inhabited α] (op : α → α → α)
    (m : Matrix α) (other : α) : Matrix α :=
  let result : Matrix α :=
    { rows := m.rows, columns := m.columns, data := m.data }
  result.map (fun element _row _column => op element other)

/-- The body generated by `impl_scalar_assign_operator` for each operator:
`map_ref_mut` with `*element op= other`. -/
def Matrix.scalar_assign_operator [Inhabited α] (op : α → α → α)
    (m : Matrix α) (other : α) : Matrix α :=
  m.map_ref_mut (fun element _row _column => op element other)

/-- The body generated by `impl_unary_operator` for negation and logical
negation: a clone of `self` mapped with `op element`. -/
def Matrix.unary_operator [Inhabited α] (op : α → α) (m : Matrix α) :
    Matrix α :=
  let result : Matrix α :=
    { rows := m.rows, columns := m.columns, data := m.data }
  result.map (fun element _row _column => op element)

/-- `Matrix::from_random`: a matrix filled with sampled values; the thread
RNG is modelled by the stream `rng`, consumed in order by `resize_with`. -/
def Matrix.from_random (rng : ℕ → ℝ) (rows columns : ℕ) :
    Except Error (Matrix ℝ) := do
  let length ← Matrix.get_length_from_rows_and_columns rows columns
  Except.ok { rows := rows, columns := columns,
              data := (List.range length).map rng }

/-- The length invariant of the matrix struct: the flat buffer holds
exactly `rows * columns` elements. -/
def Matrix.invariant (m : Matrix α) : Prop :=
  m.data.length = m.rows * m.columns

instance (m : Matrix α) : Decidable m.invariant := by
  unfold Matrix.invariant; infer_instance

/-- A layer of the neural network (src/layer.rs): an `o × i` weight matrix
and an `o × 1` bias matrix. -/
structure Layer : Type where
  weights : Matrix ℝ
  bias : Matrix ℝ

/-- `Layer::new`: weights `random(output_nodes, input_nodes)`, bias
`random(output_nodes, 1)`; the second sampling continues the stream after
the first. -/
def Layer.new (rng : ℕ → ℝ) (input_nodes output_nodes : ℕ) :
    Except Error Layer := do
  let weights ← Matrix.from_random rng output_nodes input_nodes
  let bias ←
    Matrix.from_random (fun k => rng (output_nodes * input_nodes + k))
      output_nodes 1
  Except.ok { weights := weights, bias := bias }

/-- The logistic sigmoid `x ↦ 1 / (1 + e^(-x))`, the activation applied
inside `Layer::predict`. -/
noncomputable def sigmoid (x : ℝ) : ℝ :=
  1 / (1 + Real.exp (-x))

/-- `Layer::predict`: reject inputs that are not a single column, multiply
the weights with the input, add the bias element-wise, then apply the
sigmoid to every element via `map`. -/
noncomputable def Layer.predict (layer : Layer) (input : Matrix ℝ) :
    Except Error (Matrix ℝ) :=
  if input.get_columns ≠ 1 then Except.error Error.DimensionMismatch
  else do
    let output ← layer.weights.matrix_mul input
    let output ← output.add layer.bias
    Except.ok (output.map (fun element _row _column => sigmoid element))

/-- The neural network (src/neural_network.rs): an ordered list of layers. -/
structure NeuralNetwork : Type where
  layers : List Layer

/-- `NeuralNetwork::new`: an `EmptyNetwork` error when the layer list is
empty, otherwise the network holding the given layers. -/
def NeuralNetwork.new (layers : List Layer) : Except Error NeuralNetwork :=
  if layers.isEmpty then Except.error Error.EmptyNetwork
  else Except.ok { layers := layers }

/-- `NeuralNetwork::predict`: reject inputs that are not a single column,
then fold the input through each layer's `predict` in order. -/
noncomputable def NeuralNetwork.predict (network : NeuralNetwork)
    (input : Matrix ℝ) : Except Error (Matrix ℝ) :=
  if input.get_columns ≠ 1 then Except.error Error.DimensionMismatch
  else
    network.layers.foldlM (fun output layer => layer.predict output) input

/-- The builder (src/neural_network_builder.rs): the input-node count and
the accumulated hidden-layer sizes. -/
structure NeuralNetworkBuilder : Type where
  input_nodes : ℕ
  hidden_layer_nodes : List ℕ

/-- `NeuralNetworkBuilder::new`: no hidden layers yet. -/
def NeuralNetworkBuilder.new (input_nodes : ℕ) : NeuralNetworkBuilder :=
  { input_nodes := input_nodes, hidden_layer_nodes := [] }

/-- `NeuralNetworkBuilder::add_hidden_layer`: append the size and return
the builder for chaining. -/
def NeuralNetworkBuilder.add_hidden_layer (b : NeuralNetworkBuilder)
    (nodes : ℕ) : NeuralNetworkBuilder :=
  { b with hidden_layer_nodes := b.hidden_layer_nodes ++ [nodes] }

/-- The layer-construction loop of `add_output_layer`: one `Layer::new`
per consecutive `(input, output)` size pair, the first error short
circuiting via `?`, with the RNG stream advanced past the values each
layer consumed. -/
def buildLayers (rng : ℕ → ℝ) : List (ℕ × ℕ) → Except Error (List Layer)
  | [] => Except.ok []
  | (input_nodes, output_nodes) :: rest => do
    let layer ← Layer.new rng input_nodes output_nodes
    let layers ← buildLayers
      (fun k => rng (output_nodes * input_nodes + output_nodes * 1 + k)) rest
    Except.ok (layer :: layers)

/-- `NeuralNetworkBuilder::add_output_layer`: build the size sequence
`input :: hidden ++ [nodes]`, zip it with its own tail to get the
consecutive pairs, create one layer per pair and assemble the network.
The method takes `&self`; the builder state it leaves behind is returned
as the first component. -/
def NeuralNetworkBuilder.add_output_layer (b : NeuralNetworkBuilder)
    (rng : ℕ → ℝ) (nodes : ℕ) :
    NeuralNetworkBuilder × Except Error NeuralNetwork :=
  let layer_nodes : List ℕ := b.input_nodes :: (b.hidden_layer_nodes ++ [nodes])
  let pairs : List (ℕ × ℕ) := layer_nodes.zip (layer_nodes.drop 1)
  let network : Except Error NeuralNetwork := do
    let layers ← buildLayers rng pairs
    NeuralNetwork.new layers
  ({ input_nodes := b.input_nodes,
     hidden_layer_nodes := b.hidden_layer_nodes }, network)

/-!
List-level helper lemmas about the loop shapes the source uses: updating a
flat buffer at a run of consecutive indices (the `map` loops), row-major
blocks built by pushing (the `matrix_mul` loop), and a buffer built by one
pass over its indices (the `transpose` loop).
-/

lemma getD_map_range {β : Type} (f : ℕ → β) (n i : ℕ) (d : β) :
    ((List.range n).map f).getD i d = if i < n then f i else d := by
  rw [List.getD_eq_getElem?_getD, List.getElem?_map]
  by_cases h : i < n
  · rw [List.getElem?_range h]
    simp [h]
  · rw [List.getElem?_eq_none (by simpa using Nat.le_of_not_lt h)]
    simp [h]

lemma getD_set {β : Type} (l : List β) (i j : ℕ) (a d : β) :
    (l.set i a).getD j d =
      if i = j ∧ j < l.length then a else l.getD j d := by
  rw [List.getD_eq_getElem?_getD, List.getElem?_set]
  by_cases h : i = j
  · subst h
    by_cases hj : i < l.length
    · simp [hj]
    · have hnone : l[i]? = none := List.getElem?_eq_none (by omega)
      simp [hj, List.getD_eq_getElem?_getD, hnone]
  · simp [h, List.getD_eq_getElem?_getD]

lemma getD_append {β : Type} (l₁ l₂ : List β) (j : ℕ) (d : β) :
    (l₁ ++ l₂).getD j d =
      if j < l₁.length then l₁.getD j d else l₂.getD (j - l₁.length) d := by
  rw [List.getD_eq_getElem?_getD, List.getElem?_append]
  split <;> rw [← List.getD_eq_getElem?_getD]

/-- The inner loop of `Matrix::map`: update the buffer at the consecutive
indices `base`, `base + 1`, …, `base + n - 1`, replacing the element at
`base + c` by `g c` of its current value. -/
def setSeq [Inhabited α] (g : ℕ → α → α) (base n : ℕ) (d : List α) :
    List α :=
  (List.range n).foldl
    (fun d c => d.set (base + c) (g c (d.getD (base + c) default))) d

lemma setSeq_zero [Inhabited α] (g : ℕ → α → α) (base : ℕ) (d : List α) :
    setSeq g base 0 d = d := rfl

lemma setSeq_succ [Inhabited α] (g : ℕ → α → α) (base n : ℕ) (d : List α) :
    setSeq g base (n + 1) d =
      (setSeq g base n d).set (base + n)
        (g n ((setSeq g base n d).getD (base + n) default)) := by
  unfold setSeq
  rw [List.range_succ, List.foldl_append]
  rfl

lemma setSeq_length [Inhabited α] (g : ℕ → α → α) (base n : ℕ)
    (d : List α) : (setSeq g base n d).length = d.length := by
  induction n with
  | zero => rfl
  | succ n ih => rw [setSeq_succ, List.length_set, ih]

lemma setSeq_getD [Inhabited α] (g : ℕ → α → α) (base n : ℕ) (d : List α)
    (j : ℕ) :
    (setSeq g base n d).getD j default =
      if base ≤ j ∧ j < base + n ∧ j < d.length then
        g (j - base) (d.getD j default)
      else d.getD j default := by
  induction n generalizing j with
  | zero =>
    rw [setSeq_zero, if_neg]
    omega
  | succ n ih =>
    rw [setSeq_succ, getD_set, setSeq_length]
    simp only [ih]
    rw [if_neg (by omega : ¬(base ≤ base + n ∧ base + n < base + n ∧
      base + n < d.length))]
    by_cases h1 : base + n = j
    · subst h1
      by_cases h2 : base + n < d.length
      · rw [if_pos ⟨rfl, h2⟩, if_pos (by omega)]
        congr 1
        omega
      · rw [if_neg (by omega), if_neg (by omega), if_neg (by omega)]
    · rw [if_neg (by omega)]
      by_cases h3 : base ≤ j ∧ j < base + n ∧ j < d.length
      · rw [if_pos h3, if_pos (by omega)]
      · rw [if_neg h3, if_neg (by omega)]

/-- The outer loop of `Matrix::map`: one `setSeq` pass per row, row `row`
covering the block of indices starting at `cols * row`. -/
def rowLoop [Inhabited α] (g : ℕ → ℕ → α → α) (cols R : ℕ) (d : List α) :
    List α :=
  (List.range R).foldl (fun d row => setSeq (g row) (cols * row) cols d) d

lemma rowLoop_zero [Inhabited α] (g : ℕ → ℕ → α → α) (cols : ℕ)
    (d : List α) : rowLoop g cols 0 d = d := rfl

lemma rowLoop_succ [Inhabited α] (g : ℕ → ℕ → α → α) (cols R : ℕ)
    (d : List α) :
    rowLoop g cols (R + 1) d =
      setSeq (g R) (cols * R) cols (rowLoop g cols R d) := by
  unfold rowLoop
  rw [List.range_succ, List.foldl_append]
  rfl

lemma rowLoop_length [Inhabited α] (g : ℕ → ℕ → α → α) (cols R : ℕ)
    (d : List α) : (rowLoop g cols R d).length = d.length := by
  induction R with
  | zero => rfl
  | succ R ih => rw [rowLoop_succ, setSeq_length, ih]

lemma rowLoop_getD [Inhabited α] (g : ℕ → ℕ → α → α) (cols R : ℕ)
    (d : List α) (j : ℕ) :
    (rowLoop g cols R d).getD j default =
      if j < cols * R ∧ j < d.length then
        g (j / cols) (j % cols) (d.getD j default)
      else d.getD j default := by
  induction R with
  | zero =>
    rw [rowLoop_zero, if_neg]
    simp
  | succ R ih =>
    rw [rowLoop_succ, setSeq_getD, rowLoop_length, ih]
    by_cases hA : cols * R ≤ j ∧ j < cols * R + cols ∧ j < d.length
    · obtain ⟨h1, h2, h3⟩ := hA
      have hpos : 0 < cols := by omega
      have hdiv : j / cols = R := by
        have hj : j = cols * R + (j - cols * R) := by omega
        rw [hj, Nat.mul_add_div hpos, Nat.div_eq_of_lt (by omega)]
        omega
      have hmod : j % cols = j - cols * R := by
        have hj : j = cols * R + (j - cols * R) := by omega
        conv_lhs => rw [hj]
        rw [Nat.mul_add_mod, Nat.mod_eq_of_lt (by omega)]
      rw [if_pos ⟨h1, h2, h3⟩, if_neg (by omega),
        if_pos ⟨by rw [Nat.mul_succ]; omega, h3⟩, hdiv, hmod]
    · rw [if_neg hA]
      by_cases hB : j < cols * R ∧ j < d.length
      · rw [if_pos hB, if_pos ⟨by rw [Nat.mul_succ]; omega, hB.2⟩]
      · rw [if_neg hB, if_neg (by rw [Nat.mul_succ]; omega)]

/-!
Closed forms for the matrix operations: the `map` loops, the row-major
blocks pushed by `matrix_mul`, and the single-pass `transpose` buffer.
-/

lemma Matrix.map_data_eq [Inhabited α] (m : Matrix α)
    (f : α → ℕ → ℕ → α) :
    (m.map f).data =
      rowLoop (fun row c x => f x row c) m.columns m.rows m.data := rfl

lemma Matrix.map_rows [Inhabited α] (m : Matrix α) (f : α → ℕ → ℕ → α) :
    (m.map f).rows = m.rows := rfl

lemma Matrix.map_columns [Inhabited α] (m : Matrix α)
    (f : α → ℕ → ℕ → α) : (m.map f).columns = m.columns := rfl

lemma Matrix.map_data_length [Inhabited α] (m : Matrix α)
    (f : α → ℕ → ℕ → α) : (m.map f).data.length = m.data.length := by
  rw [Matrix.map_data_eq, rowLoop_length]

lemma Matrix.map_data_getD [Inhabited α] (m : Matrix α)
    (f : α → ℕ → ℕ → α) (j : ℕ) (hj : j < m.rows * m.columns)
    (hlen : j < m.data.length) :
    (m.map f).data.getD j default =
      f (m.data.getD j default) (j / m.columns) (j % m.columns) := by
  rw [Matrix.map_data_eq, rowLoop_getD,
    if_pos ⟨by rw [Nat.mul_comm]; exact hj, hlen⟩]

lemma Matrix.map_get_unchecked [Inhabited α] (m : Matrix α)
    (f : α → ℕ → ℕ → α) (r c : ℕ) (hwf : m.invariant) (hr : r < m.rows)
    (hc : c < m.columns) :
    (m.map f).get_unchecked r c = f (m.get_unchecked r c) r c := by
  have hcpos : 0 < m.columns := by omega
  have hj : m.columns * r + c < m.rows * m.columns := by
    calc m.columns * r + c < m.columns * r + m.columns := by omega
    _ = m.columns * (r + 1) := by rw [Nat.mul_succ]
    _ ≤ m.columns * m.rows := Nat.mul_le_mul_left m.columns hr
    _ = m.rows * m.columns := Nat.mul_comm _ _
  have hdiv : (m.columns * r + c) / m.columns = r := by
    rw [Nat.mul_add_div hcpos, Nat.div_eq_of_lt hc]
    omega
  have hmod : (m.columns * r + c) % m.columns = c := by
    rw [Nat.mul_add_mod, Nat.mod_eq_of_lt hc]
  show (m.map f).data.getD ((m.map f).get_columns * r + c) default = _
  have hcols : (m.map f).get_columns = m.columns := rfl
  rw [hcols, Matrix.map_data_getD m f _ hj (by rw [hwf]; exact hj), hdiv,
    hmod]
  rfl

lemma Matrix.map_ref_mut_eq_map [Inhabited α] (m : Matrix α)
    (f : α → ℕ → ℕ → α) : m.map_ref_mut f = m.map f := rfl

lemma blocks_length {β : Type} (gg : ℕ → ℕ → β) (R C : ℕ) :
    ((List.range R).flatMap (fun r => (List.range C).map (gg r))).length =
      R * C := by
  induction R with
  | zero => simp
  | succ R ih =>
    rw [List.range_succ, List.flatMap_append, List.length_append, ih]
    simp [Nat.succ_mul]

lemma blocks_getD {β : Type} [Inhabited β] (gg : ℕ → ℕ → β) (R C r c : ℕ)
    (hr : r < R) (hc : c < C) :
    ((List.range R).flatMap (fun r => (List.range C).map (gg r))).getD
      (C * r + c) default = gg r c := by
  induction R with
  | zero => omega
  | succ R ih =>
    rw [List.range_succ, List.flatMap_append, getD_append, blocks_length]
    by_cases h : r < R
    · have hlt : C * r + c < R * C := by
        calc C * r + c < C * r + C := by omega
        _ = C * (r + 1) := by rw [Nat.mul_succ]
        _ ≤ C * R := Nat.mul_le_mul_left C h
        _ = R * C := Nat.mul_comm _ _
      rw [if_pos hlt]
      exact ih h
    · have hrR : r = R := by omega
      subst hrR
      rw [if_neg (by rw [Nat.mul_comm]; omega)]
      have hsub : C * r + c - r * C = c := by rw [Nat.mul_comm]; omega
      rw [hsub]
      simp only [List.flatMap_cons, List.flatMap_nil, List.append_nil]
      rw [getD_map_range, if_pos hc]

lemma Matrix.transpose_rows [Inhabited α] (m : Matrix α) :
    m.transpose.rows = m.columns := rfl

lemma Matrix.transpose_columns [Inhabited α] (m : Matrix α) :
    m.transpose.columns = m.rows := rfl

lemma Matrix.transpose_data_length [Inhabited α] (m : Matrix α) :
    m.transpose.data.length = m.columns * m.rows := by
  show ((List.range (m.columns * m.rows)).map _).length = _
  rw [List.length_map, List.length_range]

lemma Matrix.transpose_data_getD [Inhabited α] (m : Matrix α) (n : ℕ)
    (hn : n < m.columns * m.rows) :
    m.transpose.data.getD n default =
      m.get_unchecked (n % m.rows) (n / m.rows) := by
  show ((List.range (m.columns * m.rows)).map (fun index =>
    m.get_unchecked (index % m.rows) (index / m.rows))).getD n default = _
  rw [getD_map_range, if_pos hn]

lemma Matrix.transpose_get_unchecked [Inhabited α] (m : Matrix α)
    (r c : ℕ) (hr : r < m.columns) (hc : c < m.rows) :
    m.transpose.get_unchecked r c = m.get_unchecked c r := by
  have hrpos : 0 < m.rows := by omega
  have hi : m.rows * r + c < m.columns * m.rows := by
    calc m.rows * r + c < m.rows * r + m.rows := by omega
    _ = m.rows * (r + 1) := by rw [Nat.mul_succ]
    _ ≤ m.rows * m.columns := Nat.mul_le_mul_left m.rows hr
    _ = m.columns * m.rows := Nat.mul_comm _ _
  have hdiv : (m.rows * r + c) / m.rows = r := by
    rw [Nat.mul_add_div hrpos, Nat.div_eq_of_lt hc]
    omega
  have hmod : (m.rows * r + c) % m.rows = c := by
    rw [Nat.mul_add_mod, Nat.mod_eq_of_lt hc]
  show ((List.range (m.columns * m.rows)).map (fun index =>
      m.get_unchecked (index % m.rows) (index / m.rows))).getD
      (m.rows * r + c) default = _
  rw [getD_map_range, if_pos hi, hdiv, hmod]

/-!
The claim theorems.
-/

/-- C2: `Network::new`, given an empty sequence of layers, fails with the
error `EmptyNetwork`, and given a non-empty sequence it succeeds and
stores the layers in the given order. -/
theorem network_new_spec (layers : List Layer) :
    (layers = [] →
      NeuralNetwork.new layers = Except.error Error.EmptyNetwork) ∧
    (layers ≠ [] →
      NeuralNetwork.new layers = Except.ok { layers := layers }) := by
  constructor
  · intro h
    subst h
    rfl
  · intro h
    rw [NeuralNetwork.new, if_neg]
    simpa using h

/-- Witness for C2 at the empty list and at a concrete one-layer list. -/
theorem network_new_spec_witness :
    (NeuralNetwork.new [] = Except.error Error.EmptyNetwork) ∧
    (NeuralNetwork.new
        [{ weights := Matrix.mk 1 1 [0], bias := Matrix.mk 1 1 [0] }] =
      Except.ok { layers :=
        [{ weights := Matrix.mk 1 1 [0], bias := Matrix.mk 1 1 [0] }] }) :=
  ⟨(network_new_spec []).1 rfl,
   (network_new_spec _).2 (by simp)⟩

/-- C5: for every matrix of shape `r × c` satisfying the length invariant
and every pair `(row, column)`, `get` fails with `CellOutOfBounds` exactly
when `row ≥ r` or `column ≥ c`, and otherwise succeeds and returns the
element stored at flat offset `c * row + column` of the row-major buffer
(an offset that is then inside the buffer). -/
theorem get_spec {α : Type} [Inhabited α] (m : Matrix α)
    (hwf : m.invariant) (row column : ℕ) :
    (m.get row column = Except.error Error.CellOutOfBounds ↔
      m.rows ≤ row ∨ m.columns ≤ column) ∧
    (row < m.rows → column < m.columns →
      m.columns * row + column < m.data.length ∧
      m.get row column =
        Except.ok (m.data.getD (m.columns * row + column) default)) := by
  constructor
  · unfold Matrix.get Matrix.get_rows Matrix.get_columns
    split
    · next h => simpa using h
    · next h => simpa using h
  · intro hr hc
    have hoff : m.columns * row + column < m.data.length := by
      rw [hwf]
      calc m.columns * row + column < m.columns * row + m.columns := by omega
      _ = m.columns * (row + 1) := by rw [Nat.mul_succ]
      _ ≤ m.columns * m.rows := Nat.mul_le_mul_left m.columns hr
      _ = m.rows * m.columns := Nat.mul_comm _ _
    refine ⟨hoff, ?_⟩
    rw [Matrix.get, if_neg (by simp [Matrix.get_rows, Matrix.get_columns]; omega)]
    rfl

/-- Witness for C5 on a concrete 2 × 3 matrix: offsets and both outcomes. -/
theorem get_spec_witness :
    (Matrix.mk 2 3 [10, 11, 12, 13, 14, 15] : Matrix ℕ).invariant ∧
    ((Matrix.mk 2 3 [10, 11, 12, 13, 14, 15] : Matrix ℕ).get 1 2 =
        Except.error Error.CellOutOfBounds ↔ 2 ≤ 1 ∨ 3 ≤ 2) ∧
    (3 * 1 + 2 < 6 ∧
      (Matrix.mk 2 3 [10, 11, 12, 13, 14, 15] : Matrix ℕ).get 1 2 =
        Except.ok ([10, 11, 12, 13, 14, 15].getD (3 * 1 + 2) default)) :=
  ⟨by decide,
   (get_spec (Matrix.mk 2 3 [10, 11, 12, 13, 14, 15]) (by decide) 1 2).1,
   (get_spec (Matrix.mk 2 3 [10, 11, 12, 13, 14, 15]) (by decide) 1 2).2
     (by decide) (by decide)⟩

/-- C6: `from_flat` fails with `DimensionsTooLarge` when `rows * columns`
overflows; with no overflow it fails with `DimensionMismatch` exactly when
`data.len() ≠ rows * columns`, and otherwise succeeds with a matrix whose
flat slice equals `data`. -/
theorem from_slice_spec {α : Type} (rows columns : ℕ) (data : List α) :
    (usizeMax < rows * columns →
      Matrix.from_slice rows columns data =
        Except.error Error.DimensionsTooLarge) ∧
    (rows * columns ≤ usizeMax → data.length ≠ rows * columns →
      Matrix.from_slice rows columns data =
        Except.error Error.DimensionMismatch) ∧
    (rows * columns ≤ usizeMax → data.length = rows * columns →
      ∃ m, Matrix.from_slice rows columns data = Except.ok m ∧
        m.as_slice = data) := by
  refine ⟨?_, ?_, ?_⟩
  · intro h
    rw [Matrix.from_slice, Matrix.get_length_from_rows_and_columns,
      if_neg (by omega)]
    rfl
  · intro h hne
    rw [Matrix.from_slice, Matrix.get_length_from_rows_and_columns,
      if_pos h]
    show (if rows * columns ≠ data.length then _ else _) = _
    rw [if_pos (by omega)]
  · intro h heq
    refine ⟨{ rows := rows, columns := columns, data := data }, ?_, rfl⟩
    rw [Matrix.from_slice, Matrix.get_length_from_rows_and_columns,
      if_pos h]
    show (if rows * columns ≠ data.length then _ else _) = _
    rw [if_neg (by omega)]

/-- Witness for C6: a successful round trip at a concrete 2 × 3 slice. -/
theorem from_slice_spec_witness :
    (2 * 3 ≤ usizeMax ∧ ([0, 1, 2, 3, 4, 5] : List ℕ).length = 2 * 3) ∧
    ∃ m, Matrix.from_slice 2 3 ([0, 1, 2, 3, 4, 5] : List ℕ) =
        Except.ok m ∧ m.as_slice = [0, 1, 2, 3, 4, 5] :=
  ⟨⟨by decide, by decide⟩,
   (from_slice_spec 2 3 [0, 1, 2, 3, 4, 5]).2.2 (by decide) (by decide)⟩

/-- C9: every constructor (`uniform`/`new`, `from_flat`/`from_slice`,
`random`/`from_random`) returns `DimensionsTooLarge` whenever
`rows * columns` exceeds the maximum representable length; the size is
computed with a checked multiplication, so no construction path wraps. -/
theorem construction_overflow_spec {α : Type} (rows columns : ℕ)
    (v : α) (data : List α) (rng : ℕ → ℝ)
    (h : usizeMax < rows * columns) :
    Matrix.new rows columns v = Except.error Error.DimensionsTooLarge ∧
    Matrix.from_slice rows columns data =
      Except.error Error.DimensionsTooLarge ∧
    Matrix.from_random rng rows columns =
      Except.error Error.DimensionsTooLarge := by
  have hlen : Matrix.get_length_from_rows_and_columns rows columns =
      Except.error Error.DimensionsTooLarge := by
    rw [Matrix.get_length_from_rows_and_columns, if_neg (by omega)]
  refine ⟨?_, ?_, ?_⟩
  · rw [Matrix.new, hlen]
    rfl
  · rw [Matrix.from_slice, hlen]
    rfl
  · rw [Matrix.from_random, hlen]
    rfl

/-- Witness for C9 at `usizeMax × 2`. -/
theorem construction_overflow_spec_witness :
    usizeMax < usizeMax * 2 ∧
    (Matrix.new usizeMax 2 (0 : ℕ) =
        Except.error Error.DimensionsTooLarge ∧
      Matrix.from_slice usizeMax 2 ([] : List ℕ) =
        Except.error Error.DimensionsTooLarge ∧
      Matrix.from_random (fun _ => 0) usizeMax 2 =
        Except.error Error.DimensionsTooLarge) :=
  ⟨by decide,
   construction_overflow_spec usizeMax 2 0 [] (fun _ => 0) (by decide)⟩

/-!
Extraction lemmas: what a successful return of each fallible operation
says about its inputs and its result.
-/

lemma get_length_ok {rows columns length : ℕ}
    (h : Matrix.get_length_from_rows_and_columns rows columns =
      Except.ok length) :
    length = rows * columns ∧ rows * columns ≤ usizeMax := by
  rw [Matrix.get_length_from_rows_and_columns] at h
  split at h
  · next hle => exact ⟨(Except.ok.injEq _ _).mp h.symm, hle⟩
  · exact absurd h (by simp)

lemma matrix_mul_ok {α : Type} [Inhabited α] [Add α] [Mul α]
    {A B C : Matrix α} (h : A.matrix_mul B = Except.ok C) :
    A.columns = B.rows ∧ A.rows * B.columns ≤ usizeMax ∧
    C = { rows := A.rows, columns := B.columns,
          data := (List.range A.rows).flatMap (fun row =>
            (List.range B.columns).map (fun column =>
              (List.range (A.get_columns - 1)).foldl
                (fun element i =>
                  element + A.get_unchecked row (i + 1) *
                    B.get_unchecked (i + 1) column)
                (A.get_unchecked row 0 * B.get_unchecked 0 column))) } := by
  rw [Matrix.matrix_mul] at h
  split at h
  · exact absurd h (by simp)
  · next hdim =>
    have hdim₂ : A.columns = B.rows := by
      simpa [Matrix.get_columns, Matrix.get_rows] using hdim
    rw [Matrix.get_length_from_rows_and_columns] at h
    split at h
    · next hle =>
      refine ⟨hdim₂, hle, ?_⟩
      have := (Except.ok.injEq _ _).mp h
      exact this.symm
    · exact Except.noConfusion h

lemma element_wise_ok {α : Type} [Inhabited α] {op : α → α → α}
    {A B C : Matrix α}
    (h : Matrix.element_wise_binary_operator op A B = Except.ok C) :
    A.rows = B.rows ∧ A.columns = B.columns ∧
    C = A.map (fun element row column =>
      op element (B.get_unchecked row column)) := by
  rw [Matrix.element_wise_binary_operator] at h
  split at h
  · exact absurd h (by simp)
  · next hdim =>
    have hdim₂ : A.rows = B.rows ∧ A.columns = B.columns := by
      simpa [Matrix.get_columns, Matrix.get_rows] using hdim
    refine ⟨hdim₂.1, hdim₂.2, ?_⟩
    have := (Except.ok.injEq _ _).mp h
    exact this.symm

/-- C1: `matrix_mul` fails with `DimensionMismatch` exactly when the inner
dimensions disagree; on success the result has shape
`A.rows × B.columns`, every output element `(r, c)` is the seeded and
accumulated dot product of row `r` of `A` with column `c` of `B`, and the
concrete `1 × 3` by `3 × 4` scenario yields `[[83, 63, 37, 75]]`. -/
theorem matrix_mul_spec :
    (∀ (α : Type) [Inhabited α] [Add α] [Mul α] (A B : Matrix α),
      (A.matrix_mul B = Except.error Error.DimensionMismatch ↔
        A.columns ≠ B.rows) ∧
      (∀ C, A.matrix_mul B = Except.ok C →
        C.rows = A.rows ∧ C.columns = B.columns ∧
        ∀ r c, r < C.rows → c < C.columns →
          C.get_unchecked r c =
            (List.range (A.columns - 1)).foldl
              (fun element i =>
                element + A.get_unchecked r (i + 1) *
                  B.get_unchecked (i + 1) c)
              (A.get_unchecked r 0 * B.get_unchecked 0 c))) ∧
    (Matrix.mk 1 3 [3, 4, 2] : Matrix ℕ).matrix_mul
        (Matrix.mk 3 4 [13, 9, 7, 15, 8, 7, 4, 6, 6, 4, 0, 3]) =
      Except.ok (Matrix.mk 1 4 [83, 63, 37, 75]) := by
  constructor
  · intro α _ _ _ A B
    constructor
    · rw [Matrix.matrix_mul]
      split
      · next hdim =>
        exact iff_of_true rfl
          (by simpa [Matrix.get_columns, Matrix.get_rows] using hdim)
      · next hdim =>
        have hdim2 : A.columns = B.rows := by
          simpa [Matrix.get_columns, Matrix.get_rows] using hdim
        rw [Matrix.get_length_from_rows_and_columns]
        split
        · exact iff_of_false (fun hcontra => Except.noConfusion hcontra)
            (by omega)
        · refine iff_of_false (fun hcontra => ?_) (by omega)
          exact absurd ((Except.error.injEq _ _).mp hcontra) (by decide)
    · intro C hC
      obtain ⟨-, -, hCeq⟩ := matrix_mul_ok hC
      subst hCeq
      refine ⟨rfl, rfl, ?_⟩
      intro r c hr hc
      show ((List.range A.rows).flatMap (fun row =>
        (List.range B.columns).map (fun column =>
          (List.range (A.get_columns - 1)).foldl
            (fun element i =>
              element + A.get_unchecked row (i + 1) *
                B.get_unchecked (i + 1) column)
            (A.get_unchecked row 0 * B.get_unchecked 0 column)))).getD
          (B.columns * r + c) default = _
      rw [blocks_getD _ A.rows B.columns r c hr hc]
      rfl
  · rfl

/-- Witness for C1: the theorem applied at the concrete spec scenario and
the element at `(0, 0)` of the product. -/
theorem matrix_mul_spec_witness :
    ((Matrix.mk 1 3 [3, 4, 2] : Matrix ℕ).matrix_mul
        (Matrix.mk 3 4 [13, 9, 7, 15, 8, 7, 4, 6, 6, 4, 0, 3]) =
      Except.ok (Matrix.mk 1 4 [83, 63, 37, 75])) ∧
    ((Matrix.mk 1 4 [83, 63, 37, 75] : Matrix ℕ).rows =
        (Matrix.mk 1 3 [3, 4, 2] : Matrix ℕ).rows ∧
      (Matrix.mk 1 4 [83, 63, 37, 75] : Matrix ℕ).columns =
        (Matrix.mk 3 4 [13, 9, 7, 15, 8, 7, 4, 6, 6, 4, 0, 3] :
          Matrix ℕ).columns ∧
      ∀ r c, r < (Matrix.mk 1 4 [83, 63, 37, 75] : Matrix ℕ).rows →
        c < (Matrix.mk 1 4 [83, 63, 37, 75] : Matrix ℕ).columns →
        (Matrix.mk 1 4 [83, 63, 37, 75] : Matrix ℕ).get_unchecked r c =
          (List.range ((Matrix.mk 1 3 [3, 4, 2] : Matrix ℕ).columns - 1)).foldl
            (fun element i =>
              element +
                (Matrix.mk 1 3 [3, 4, 2] : Matrix ℕ).get_unchecked r (i + 1) *
                (Matrix.mk 3 4 [13, 9, 7, 15, 8, 7, 4, 6, 6, 4, 0, 3] :
                  Matrix ℕ).get_unchecked (i + 1) c)
            ((Matrix.mk 1 3 [3, 4, 2] : Matrix ℕ).get_unchecked r 0 *
              (Matrix.mk 3 4 [13, 9, 7, 15, 8, 7, 4, 6, 6, 4, 0, 3] :
                Matrix ℕ).get_unchecked 0 c)) :=
  ⟨matrix_mul_spec.2,
   (matrix_mul_spec.1 ℕ (Matrix.mk 1 3 [3, 4, 2])
      (Matrix.mk 3 4 [13, 9, 7, 15, 8, 7, 4, 6, 6, 4, 0, 3])).2
     (Matrix.mk 1 4 [83, 63, 37, 75]) matrix_mul_spec.2⟩

/-- C7: transposition swaps the dimensions, the element at `(r, c)` of the
transpose is the element at `(c, r)` of the source, and transposing twice
is the identity on the flat buffer. -/
theorem transpose_spec {α : Type} [Inhabited α] (m : Matrix α)
    (hwf : m.invariant) :
    (m.transpose.rows = m.columns ∧ m.transpose.columns = m.rows) ∧
    (∀ r c, r < m.columns → c < m.rows →
      m.transpose.get_unchecked r c = m.get_unchecked c r) ∧
    m.transpose.transpose.as_slice = m.as_slice := by
  refine ⟨⟨rfl, rfl⟩, fun r c hr hc =>
    Matrix.transpose_get_unchecked m r c hr hc, ?_⟩
  show m.transpose.transpose.data = m.data
  have hlen₂ : m.transpose.transpose.data.length = m.rows * m.columns := by
    rw [Matrix.transpose_data_length, Matrix.transpose_rows,
      Matrix.transpose_columns, Nat.mul_comm]
  apply List.ext_getElem (by rw [hlen₂, hwf])
  intro n h₁ h₂
  have hn : n < m.rows * m.columns := by rwa [hlen₂] at h₁
  have hcpos : 0 < m.columns := by
    rcases Nat.eq_zero_or_pos m.columns with h | h
    · rw [h, Nat.mul_zero] at hn
      omega
    · exact h
  have hdivlt : n / m.columns < m.rows :=
    (Nat.div_lt_iff_lt_mul hcpos).mpr hn
  have hmodlt : n % m.columns < m.columns := Nat.mod_lt _ hcpos
  rw [← List.getD_eq_getElem m.transpose.transpose.data default h₁,
    ← List.getD_eq_getElem m.data default h₂]
  have hn₂ : n < m.transpose.columns * m.transpose.rows := by
    rw [Matrix.transpose_columns, Matrix.transpose_rows]
    exact hn
  rw [Matrix.transpose_data_getD m.transpose n hn₂, Matrix.transpose_rows]
  rw [Matrix.transpose_get_unchecked m _ _ hmodlt hdivlt]
  show m.data.getD (m.columns * (n / m.columns) + n % m.columns) default = _
  rw [Nat.div_add_mod]

/-- Witness for C7 at the spec's concrete 2 × 3 scenario. -/
theorem transpose_spec_witness :
    (Matrix.mk 2 3 [0, 1, 2, 3, 4, 5] : Matrix ℕ).invariant ∧
    (((Matrix.mk 2 3 [0, 1, 2, 3, 4, 5] : Matrix ℕ).transpose.rows = 3 ∧
      (Matrix.mk 2 3 [0, 1, 2, 3, 4, 5] : Matrix ℕ).transpose.columns = 2) ∧
    (∀ r c, r < 3 → c < 2 →
      (Matrix.mk 2 3 [0, 1, 2, 3, 4, 5] : Matrix ℕ).transpose.get_unchecked
          r c =
        (Matrix.mk 2 3 [0, 1, 2, 3, 4, 5] : Matrix ℕ).get_unchecked c r) ∧
    (Matrix.mk 2 3 [0, 1, 2, 3, 4, 5] :
        Matrix ℕ).transpose.transpose.as_slice =
      (Matrix.mk 2 3 [0, 1, 2, 3, 4, 5] : Matrix ℕ).as_slice) :=
  ⟨by decide, transpose_spec (Matrix.mk 2 3 [0, 1, 2, 3, 4, 5]) (by decide)⟩

/-- C8: every element-wise binary operator between two matrices fails with
`DimensionMismatch` exactly when the operands differ in rows or columns,
and otherwise succeeds with a matrix of the same shape combining the
corresponding element pairs with the scalar operator. -/
theorem element_wise_spec {α : Type} [Inhabited α] (op : α → α → α)
    (A B : Matrix α) (hA : A.invariant) :
    (Matrix.element_wise_binary_operator op A B =
        Except.error Error.DimensionMismatch ↔
      A.rows ≠ B.rows ∨ A.columns ≠ B.columns) ∧
    (A.rows = B.rows → A.columns = B.columns →
      ∃ C, Matrix.element_wise_binary_operator op A B = Except.ok C ∧
        C.rows = A.rows ∧ C.columns = A.columns ∧
        ∀ r c, r < A.rows → c < A.columns →
          C.get_unchecked r c =
            op (A.get_unchecked r c) (B.get_unchecked r c)) := by
  constructor
  · rw [Matrix.element_wise_binary_operator]
    split
    · next hdim =>
      exact iff_of_true rfl
        (by simpa [Matrix.get_rows, Matrix.get_columns] using hdim)
    · next hdim =>
      exact iff_of_false (fun hcontra => Except.noConfusion hcontra)
        (by simpa [Matrix.get_rows, Matrix.get_columns] using hdim)
  · intro h₁ h₂
    refine ⟨A.map (fun element row column =>
      op element (B.get_unchecked row column)), ?_, rfl, rfl, ?_⟩
    · rw [Matrix.element_wise_binary_operator,
        if_neg (by simp [Matrix.get_rows, Matrix.get_columns, h₁, h₂])]
    · intro r c hr hc
      rw [Matrix.map_get_unchecked A _ r c hA hr hc]

/-- Witness for C8: addition of two concrete 2 × 3 natural matrices. -/
theorem element_wise_spec_witness :
    (Matrix.mk 2 3 [1, 2, 3, 4, 5, 6] : Matrix ℕ).invariant ∧
    ((Matrix.element_wise_binary_operator (fun a b => a + b)
        (Matrix.mk 2 3 [1, 2, 3, 4, 5, 6] : Matrix ℕ)
        (Matrix.mk 2 3 [10, 20, 30, 40, 50, 60]) =
          Except.error Error.DimensionMismatch ↔
        (2 : ℕ) ≠ 2 ∨ (3 : ℕ) ≠ 3) ∧
      ∃ C, Matrix.element_wise_binary_operator (fun a b => a + b)
          (Matrix.mk 2 3 [1, 2, 3, 4, 5, 6] : Matrix ℕ)
          (Matrix.mk 2 3 [10, 20, 30, 40, 50, 60]) = Except.ok C ∧
        C.rows = 2 ∧ C.columns = 3 ∧
        ∀ r c, r < 2 → c < 3 →
          C.get_unchecked r c =
            (Matrix.mk 2 3 [1, 2, 3, 4, 5, 6] : Matrix ℕ).get_unchecked r c +
            (Matrix.mk 2 3 [10, 20, 30, 40, 50, 60] :
              Matrix ℕ).get_unchecked r c) :=
  ⟨by decide,
   (element_wise_spec (fun a b => a + b)
      (Matrix.mk 2 3 [1, 2, 3, 4, 5, 6])
      (Matrix.mk 2 3 [10, 20, 30, 40, 50, 60]) (by decide)).1,
   (element_wise_spec (fun a b => a + b)
      (Matrix.mk 2 3 [1, 2, 3, 4, 5, 6])
      (Matrix.mk 2 3 [10, 20, 30, 40, 50, 60]) (by decide)).2 rfl rfl⟩

lemma new_ok {α : Type} {rows columns : ℕ} {v : α} {m : Matrix α}
    (h : Matrix.new rows columns v = Except.ok m) :
    m = Matrix.mk rows columns (List.replicate (rows * columns) v) := by
  rw [Matrix.new, Matrix.get_length_from_rows_and_columns] at h
  split at h
  · exact ((Except.ok.injEq _ _).mp h).symm
  · exact Except.noConfusion h

lemma from_slice_ok {α : Type} {rows columns : ℕ} {data : List α}
    {m : Matrix α} (h : Matrix.from_slice rows columns data = Except.ok m) :
    m = Matrix.mk rows columns data ∧ data.length = rows * columns := by
  rw [Matrix.from_slice, Matrix.get_length_from_rows_and_columns] at h
  split at h
  · next hle =>
    have h₂ : (if rows * columns ≠ data.length then
        (Except.error Error.DimensionMismatch : Except Error (Matrix α))
      else Except.ok (Matrix.mk rows columns data)) = Except.ok m := h
    split at h₂
    · exact Except.noConfusion h₂
    · next hlen =>
      exact ⟨((Except.ok.injEq _ _).mp h₂).symm, by omega⟩
  · exact Except.noConfusion h

lemma from_random_ok {rng : ℕ → ℝ} {rows columns : ℕ} {m : Matrix ℝ}
    (h : Matrix.from_random rng rows columns = Except.ok m) :
    m = Matrix.mk rows columns ((List.range (rows * columns)).map rng) ∧
    rows * columns ≤ usizeMax := by
  rw [Matrix.from_random, Matrix.get_length_from_rows_and_columns] at h
  split at h
  · next hle => exact ⟨((Except.ok.injEq _ _).mp h).symm, hle⟩
  · exact Except.noConfusion h

lemma map_invariant {α : Type} [Inhabited α] (m : Matrix α)
    (f : α → ℕ → ℕ → α) (hwf : m.invariant) : (m.map f).invariant := by
  show (m.map f).data.length = (m.map f).rows * (m.map f).columns
  rw [Matrix.map_data_length, Matrix.map_rows, Matrix.map_columns]
  exact hwf

lemma matrix_mul_ok_shape {α : Type} [Inhabited α] [Add α] [Mul α]
    {A B C : Matrix α} (h : A.matrix_mul B = Except.ok C) :
    C.rows = A.rows ∧ C.columns = B.columns ∧ C.invariant := by
  obtain ⟨-, -, hC⟩ := matrix_mul_ok h
  subst hC
  refine ⟨rfl, rfl, ?_⟩
  show ((List.range A.rows).flatMap _).length = A.rows * B.columns
  rw [blocks_length]

/-- C3: every matrix produced by a constructor satisfies
`data.len() = rows * columns`, and every operation that produces or
mutates a matrix (`map`, `map_ref_mut`, `transpose`, `matrix_mul`,
element-wise, scalar and unary operators) preserves the invariant. -/
theorem invariant_spec :
    (∀ (α : Type) (rows columns : ℕ) (v : α) (m : Matrix α),
      Matrix.new rows columns v = Except.ok m → m.invariant) ∧
    (∀ (α : Type) (rows columns : ℕ) (data : List α) (m : Matrix α),
      Matrix.from_slice rows columns data = Except.ok m → m.invariant) ∧
    (∀ (rng : ℕ → ℝ) (rows columns : ℕ) (m : Matrix ℝ),
      Matrix.from_random rng rows columns = Except.ok m → m.invariant) ∧
    (∀ (α : Type) [Inhabited α] (m : Matrix α) (f : α → ℕ → ℕ → α),
      m.invariant → (m.map f).invariant) ∧
    (∀ (α : Type) [Inhabited α] (m : Matrix α) (f : α → ℕ → ℕ → α),
      m.invariant → (m.map_ref_mut f).invariant) ∧
    (∀ (α : Type) [Inhabited α] (m : Matrix α), m.transpose.invariant) ∧
    (∀ (α : Type) [Inhabited α] [Add α] [Mul α] (A B C : Matrix α),
      A.matrix_mul B = Except.ok C → C.invariant) ∧
    (∀ (α : Type) [Inhabited α] (op : α → α → α) (A B C : Matrix α),
      Matrix.element_wise_binary_operator op A B = Except.ok C →
      A.invariant → C.invariant) ∧
    (∀ (α : Type) [Inhabited α] (op : α → α → α) (A : Matrix α) (s : α),
      A.invariant → (Matrix.scalar_binary_operator op A s).invariant) ∧
    (∀ (α : Type) [Inhabited α] (op : α → α → α) (A : Matrix α) (s : α),
      A.invariant → (Matrix.scalar_assign_operator op A s).invariant) ∧
    (∀ (α : Type) [Inhabited α] (op : α → α) (A : Matrix α),
      A.invariant → (Matrix.unary_operator op A).invariant) := by
  refine ⟨?_, ?_, ?_, ?_, ?_, ?_, ?_, ?_, ?_, ?_, ?_⟩
  · intro α rows columns v m h
    rw [new_ok h]
    show (List.replicate (rows * columns) v).length = rows * columns
    rw [List.length_replicate]
  · intro α rows columns data m h
    obtain ⟨hm, hlen⟩ := from_slice_ok h
    rw [hm]
    exact hlen
  · intro rng rows columns m h
    obtain ⟨hm, -⟩ := from_random_ok h
    rw [hm]
    show ((List.range (rows * columns)).map rng).length = rows * columns
    rw [List.length_map, List.length_range]
  · intro α _ m f hwf
    exact map_invariant m f hwf
  · intro α _ m f hwf
    rw [Matrix.map_ref_mut_eq_map]
    exact map_invariant m f hwf
  · intro α _ m
    show m.transpose.data.length = m.transpose.rows * m.transpose.columns
    rw [Matrix.transpose_data_length, Matrix.transpose_rows,
      Matrix.transpose_columns]
  · intro α _ _ _ A B C h
    exact (matrix_mul_ok_shape h).2.2
  · intro α _ op A B C h hA
    obtain ⟨-, -, hC⟩ := element_wise_ok h
    rw [hC]
    exact map_invariant A _ hA
  · intro α _ op A s hA
    exact map_invariant A _ hA
  · intro α _ op A s hA
    rw [Matrix.scalar_assign_operator, Matrix.map_ref_mut_eq_map]
    exact map_invariant A _ hA
  · intro α _ op A hA
    exact map_invariant A _ hA

/-- Witness for C3: the invariant established by `new` at a concrete
`2 × 3` construction and preserved by `transpose` at a concrete matrix. -/
theorem invariant_spec_witness :
    (Matrix.new 2 3 (0 : ℕ) =
      Except.ok (Matrix.mk 2 3 (List.replicate 6 0))) ∧
    (Matrix.mk 2 3 (List.replicate 6 0) : Matrix ℕ).invariant ∧
    (Matrix.mk 2 3 [1, 2, 3, 4, 5, 6] : Matrix ℕ).transpose.invariant :=
  ⟨rfl, invariant_spec.1 ℕ 2 3 0 _ rfl,
   invariant_spec.2.2.2.2.2.1 ℕ (Matrix.mk 2 3 [1, 2, 3, 4, 5, 6])⟩

lemma layer_new_ok {rng : ℕ → ℝ} {i o : ℕ} {layer : Layer}
    (h : Layer.new rng i o = Except.ok layer) :
    layer.weights = Matrix.mk o i ((List.range (o * i)).map rng) ∧
    layer.bias =
      Matrix.mk o 1 ((List.range (o * 1)).map (fun k => rng (o * i + k))) ∧
    o * i ≤ usizeMax ∧ o * 1 ≤ usizeMax := by
  by_cases h1 : o * i ≤ usizeMax
  · have hw : Matrix.from_random rng o i =
        Except.ok (Matrix.mk o i ((List.range (o * i)).map rng)) := by
      rw [Matrix.from_random, Matrix.get_length_from_rows_and_columns,
        if_pos h1]
      rfl
    by_cases h2 : o * 1 ≤ usizeMax
    · have hb : Matrix.from_random (fun k => rng (o * i + k)) o 1 =
          Except.ok (Matrix.mk o 1
            ((List.range (o * 1)).map (fun k => rng (o * i + k)))) := by
        rw [Matrix.from_random, Matrix.get_length_from_rows_and_columns,
          if_pos h2]
        rfl
      rw [Layer.new, hw, hb] at h
      have h₃ : Except.ok
          ({ weights := Matrix.mk o i ((List.range (o * i)).map rng),
             bias := Matrix.mk o 1 ((List.range (o * 1)).map
               (fun k => rng (o * i + k))) } : Layer) = Except.ok layer := h
      rw [← (Except.ok.injEq _ _).mp h₃]
      exact ⟨rfl, rfl, h1, h2⟩
    · have hb : Matrix.from_random (fun k => rng (o * i + k)) o 1 =
          Except.error Error.DimensionsTooLarge := by
        rw [Matrix.from_random, Matrix.get_length_from_rows_and_columns,
          if_neg h2]
        rfl
      rw [Layer.new, hw, hb] at h
      exact Except.noConfusion h
  · have hw : Matrix.from_random rng o i =
        Except.error Error.DimensionsTooLarge := by
      rw [Matrix.from_random, Matrix.get_length_from_rows_and_columns,
        if_neg h1]
      rfl
    rw [Layer.new, hw] at h
    exact Except.noConfusion h

/-- C4: for a layer built by `Layer::new(input_nodes, output_nodes)`,
`predict` fails with `DimensionMismatch` if the input is not a single
column; for an `input_nodes × 1` input it succeeds and the result is the
`output_nodes × 1` matrix obtained by `weights.matrix_mul(input)`, adding
the bias element-wise, and applying the logistic sigmoid to every
element. -/
theorem layer_predict_spec (rng : ℕ → ℝ) (input_nodes output_nodes : ℕ)
    (layer : Layer)
    (hnew : Layer.new rng input_nodes output_nodes = Except.ok layer)
    (input : Matrix ℝ) :
    (input.columns ≠ 1 →
      layer.predict input = Except.error Error.DimensionMismatch) ∧
    (input.rows = input_nodes → input.columns = 1 →
      ∃ affine, layer.weights.matrix_mul input = Except.ok affine ∧
        ∃ biased, affine.add layer.bias = Except.ok biased ∧
          layer.predict input = Except.ok
            (biased.map (fun element _row _column => sigmoid element)) ∧
          (biased.map (fun element _row _column =>
            sigmoid element)).rows = output_nodes ∧
          (biased.map (fun element _row _column =>
            sigmoid element)).columns = 1) := by
  obtain ⟨hw, hb, hmax₁, hmax₂⟩ := layer_new_ok hnew
  constructor
  · intro hcol
    rw [Layer.predict,
      if_pos (by simpa [Matrix.get_columns] using hcol)]
  · intro hrows hcols
    have hcond : ¬(layer.weights.get_columns ≠ input.get_rows) := by
      rw [hw]
      simp [Matrix.get_columns, Matrix.get_rows, hrows]
    have hsize : layer.weights.rows * input.columns ≤ usizeMax := by
      rw [hw]
      show output_nodes * input.columns ≤ usizeMax
      rw [hcols]
      exact hmax₂
    obtain ⟨M, hM⟩ : ∃ M, layer.weights.matrix_mul input = Except.ok M := by
      rw [Matrix.matrix_mul, if_neg hcond,
        Matrix.get_length_from_rows_and_columns, if_pos hsize]
      exact ⟨_, rfl⟩
    obtain ⟨hMr, hMc, hMwf⟩ := matrix_mul_ok_shape hM
    have hMr₂ : M.rows = output_nodes := by
      rw [hMr, hw]
    have hMc₂ : M.columns = 1 := by
      rw [hMc, hcols]
    have haddcond : ¬(M.get_rows ≠ layer.bias.get_rows ∨
        M.get_columns ≠ layer.bias.get_columns) := by
      rw [hb]
      simp [Matrix.get_rows, Matrix.get_columns, hMr₂, hMc₂]
    obtain ⟨D, hD⟩ : ∃ D, M.add layer.bias = Except.ok D := by
      rw [Matrix.add, Matrix.element_wise_binary_operator, if_neg haddcond]
      exact ⟨_, rfl⟩
    obtain ⟨-, -, hDeq⟩ := element_wise_ok hD
    have hDr : D.rows = output_nodes := by
      rw [hDeq, Matrix.map_rows, hMr₂]
    have hDc : D.columns = 1 := by
      rw [hDeq, Matrix.map_columns, hMc₂]
    refine ⟨M, hM, D, hD, ?_, ?_, ?_⟩
    · rw [Layer.predict,
        if_neg (by simpa [Matrix.get_columns] using hcols), hM]
      show (M.add layer.bias).bind _ = _
      rw [hD]
      rfl
    · rw [Matrix.map_rows]
      exact hDr
    · rw [Matrix.map_columns]
      exact hDc

/-- Witness for C4: a concrete 1-input, 1-output layer drawn from the
constant-zero stream, applied to the 1 × 1 input `[0]`. -/
theorem layer_predict_spec_witness :
    (Layer.new (fun _ => 0) 1 1 =
      Except.ok (Layer.mk (Matrix.mk 1 1 [0]) (Matrix.mk 1 1 [0]))) ∧
    ((Matrix.mk 1 1 [0] : Matrix ℝ).rows = 1 ∧
      (Matrix.mk 1 1 [0] : Matrix ℝ).columns = 1) ∧
    (∃ affine,
      (Layer.mk (Matrix.mk 1 1 [0]) (Matrix.mk 1 1 [0])).weights.matrix_mul
          (Matrix.mk 1 1 [0]) =
        Except.ok affine ∧
      ∃ biased,
        affine.add (Layer.mk (Matrix.mk 1 1 [0]) (Matrix.mk 1 1 [0])).bias =
          Except.ok biased ∧
        (Layer.mk (Matrix.mk 1 1 [0]) (Matrix.mk 1 1 [0])).predict
            (Matrix.mk 1 1 [0]) = Except.ok
          (biased.map (fun element _row _column => sigmoid element)) ∧
        (biased.map (fun element _row _column =>
          sigmoid element)).rows = 1 ∧
        (biased.map (fun element _row _column =>
          sigmoid element)).columns = 1) :=
  ⟨rfl, ⟨rfl, rfl⟩,
   (layer_predict_spec (fun _ => 0) 1 1
      (Layer.mk (Matrix.mk 1 1 [0]) (Matrix.mk 1 1 [0]))
      (by rfl) (Matrix.mk 1 1 [0])).2 rfl rfl⟩

lemma buildLayers_ok :
    ∀ {rng : ℕ → ℝ} {ps : List (ℕ × ℕ)} {layers : List Layer},
    buildLayers rng ps = Except.ok layers →
    layers.map (fun layer => (layer.weights.columns, layer.weights.rows)) =
      ps := by
  intro rng ps
  induction ps generalizing rng with
  | nil =>
    intro layers h
    have h₂ : Except.ok ([] : List Layer) = Except.ok layers := h
    rw [← (Except.ok.injEq _ _).mp h₂]
    rfl
  | cons p rest ih =>
    intro layers h
    obtain ⟨i, o⟩ := p
    rw [buildLayers] at h
    cases hl : Layer.new rng i o with
    | error e =>
      rw [hl] at h
      exact Except.noConfusion h
    | ok layer =>
      rw [hl] at h
      have h₂ : Except.bind
          (buildLayers (fun k => rng (o * i + o * 1 + k)) rest)
          (fun layers => Except.ok (layer :: layers)) = Except.ok layers := h
      cases hr : buildLayers (fun k => rng (o * i + o * 1 + k)) rest with
      | error e =>
        rw [hr] at h₂
        exact Except.noConfusion h₂
      | ok ls =>
        rw [hr] at h₂
        have h₃ : Except.ok (layer :: ls) = Except.ok layers := h₂
        rw [← (Except.ok.injEq _ _).mp h₃, List.map_cons, ih hr]
        obtain ⟨hwz, -, -, -⟩ := layer_new_ok hl
        rw [hwz]

/-- C10: `add_output_layer` borrows the builder immutably and leaves it
unchanged, and the network each call constructs draws its layer sizes from
the same sequence `input_nodes :: hidden ++ [nodes]`: each layer's
`(input, output)` size pair is the corresponding consecutive pair of that
sequence, independent of the sampled random values. -/
theorem add_output_layer_spec (b : NeuralNetworkBuilder) (rng : ℕ → ℝ)
    (nodes : ℕ) (net : NeuralNetwork)
    (h : (b.add_output_layer rng nodes).2 = Except.ok net) :
    (b.add_output_layer rng nodes).1 = b ∧
    net.layers.map (fun layer =>
        (layer.weights.columns, layer.weights.rows)) =
      (b.input_nodes :: (b.hidden_layer_nodes ++ [nodes])).zip
        ((b.input_nodes :: (b.hidden_layer_nodes ++ [nodes])).drop 1) := by
  constructor
  · rfl
  · have h₂ : Except.bind
        (buildLayers rng
          ((b.input_nodes :: (b.hidden_layer_nodes ++ [nodes])).zip
            ((b.input_nodes :: (b.hidden_layer_nodes ++ [nodes])).drop 1)))
        (fun layers => NeuralNetwork.new layers) = Except.ok net := h
    cases hbl : buildLayers rng
        ((b.input_nodes :: (b.hidden_layer_nodes ++ [nodes])).zip
          ((b.input_nodes :: (b.hidden_layer_nodes ++ [nodes])).drop 1)) with
    | error e =>
      rw [hbl] at h₂
      exact Except.noConfusion h₂
    | ok layers =>
      rw [hbl] at h₂
      have h₃ : NeuralNetwork.new layers = Except.ok net := h₂
      rw [NeuralNetwork.new] at h₃
      split at h₃
      · exact Except.noConfusion h₃
      · rw [← (Except.ok.injEq _ _).mp h₃]
        exact buildLayers_ok hbl

/-- Witness for C10: a builder with one input node and no hidden layers,
finalized twice over the constant-zero stream. -/
theorem add_output_layer_spec_witness :
    (((NeuralNetworkBuilder.mk 1 []).add_output_layer (fun _ => 0) 1).2 =
      Except.ok (NeuralNetwork.mk
        [Layer.mk (Matrix.mk 1 1 [0]) (Matrix.mk 1 1 [0])])) ∧
    ((NeuralNetworkBuilder.mk 1 []).add_output_layer (fun _ => 0) 1).1 =
      NeuralNetworkBuilder.mk 1 [] ∧
    (NeuralNetwork.mk
        [Layer.mk (Matrix.mk 1 1 [0]) (Matrix.mk 1 1 [0])]).layers.map
      (fun layer => (layer.weights.columns, layer.weights.rows)) =
      ((1 : ℕ) :: (([] : List ℕ) ++ [1])).zip
        (((1 : ℕ) :: (([] : List ℕ) ++ [1])).drop 1) :=
  ⟨rfl,
   add_output_layer_spec (NeuralNetworkBuilder.mk 1 []) (fun _ => 0) 1
     (NeuralNetwork.mk [Layer.mk (Matrix.mk 1 1 [0]) (Matrix.mk 1 1 [0])])
     rfl⟩

end Reural
